import Mathlib

/-!
Shallow embedding of the card/chunk/view data-management subsystem of the
repository (src/src/services/CardManager.ts, src/src/storage/CardStorage.ts,
src/src/utils/CardUtils.ts, and the in-memory CardManager variant in
src/unnamed/part_001), together with theorems settling the frozen claims.

Modelling conventions:
- A JavaScript string is a list of characters (abbrev Str).
- JavaScript regular-expression whitespace is modelled by the ASCII
  whitespace class isWS; both word-count implementations under comparison
  use the same class, so the comparison is unaffected by the exact set.
- Every call to new Date() inside one manager operation is modelled by a
  single numeric parameter now passed to the operation.
- randomUUID id generation is modelled by an explicit newId parameter.
- The persistent store (one JSON document per id) is a function from ids to
  optional documents; save overwrites the addressed slot, delete clears it.
- Thrown JavaScript Error values are modelled by Except with the error kind
  Err.notFound (the only kind the embedded code ever throws); the message
  string is not modelled.
-/

/-- A JavaScript string, modelled as its list of characters. -/
abbrev Str := List Char

/-- Whitespace class used by the regular expressions in the source
(trim and the whitespace-split in countWords). -/
def isWS (c : Char) : Bool :=
  c = ' ' || c = '\t' || c = '\n' || c = '\r' || c = '\x0B' || c = '\x0C'

/-- Sentence-terminal punctuation class of the regex used by extractTitle
(split on runs of period, exclamation mark, question mark). -/
def isPunct (c : Char) : Bool :=
  c = '.' || c = '!' || c = '?'

/-- JavaScript String.prototype.trim: drop leading and trailing whitespace. -/
def jsTrim (l : Str) : Str :=
  ((l.dropWhile isWS).reverse.dropWhile isWS).reverse

/-- Worker for splitRuns: acc is the reversed piece being built, inSep
records whether the scanner currently stands inside a separator run (the
piece before that run has then already been emitted). -/
def splitRunsGo (p : Char → Bool) : Str → Str → Bool → List Str
  | [], acc, inSep => if inSep then [[]] else [acc.reverse]
  | c :: cs, acc, inSep =>
    if p c then
      if inSep then splitRunsGo p cs [] true
      else acc.reverse :: splitRunsGo p cs [] true
    else
      if inSep then splitRunsGo p cs [c] false
      else splitRunsGo p cs (c :: acc) false

/-- JavaScript String.prototype.split with a one-or-more character-class
regex (such as whitespace-plus or punctuation-plus): the string is cut at
every maximal run of characters satisfying the class, and empty pieces
appear at the borders exactly as in JavaScript (an empty input yields one
empty piece). -/
def splitRuns (p : Char → Bool) (l : Str) : List Str :=
  splitRunsGo p l [] false

/-- The authoritative countWords of src/src/utils/CardUtils.ts: guard on
empty or whitespace-only content, otherwise count the pieces of the
whitespace-split of the trimmed content. -/
def countWords (content : Str) : Nat :=
  if content = [] ∨ (jsTrim content).length = 0 then 0
  else (splitRuns isWS (jsTrim content)).length

/-- The private countWords of the in-memory CardManager variant
(src/unnamed/part_001, lines 231-236): trim, whitespace-split, keep only
nonempty pieces, count. -/
def countWordsMem (text : Str) : Nat :=
  ((splitRuns isWS (jsTrim text)).filter (fun w => w.length > 0)).length

/-- JavaScript String.prototype.substring: both indices are clamped into
the interval from 0 to the length, and swapped when given in reverse
order; the characters strictly between the two resolved indices are kept. -/
def jsSubstring (l : Str) (a b : Int) : Str :=
  let len : Int := l.length
  let a' := min (max a 0) len
  let b' := min (max b 0) len
  (l.take (max a' b').toNat).drop (min a' b').toNat

/-- The value new Set spread back into an array: duplicates removed,
first occurrence order kept. -/
def jsSetDedup (l : List Str) : List Str :=
  l.foldl (fun acc x => if x ∈ acc then acc else acc ++ [x]) []

/-- The extractTitle utility of src/src/utils/CardUtils.ts. -/
def extractTitle (content : Str) : Str :=
  let lines := (jsTrim content).splitOn '\n'
  let firstLine := jsTrim (lines.headD [])
  if firstLine.length > 0 then
    if firstLine.length ≤ 50 then firstLine
    else
      let sentences := splitRuns isPunct firstLine
      let firstSentence := jsTrim (sentences.headD [])
      if firstSentence.length ≤ 50 then firstSentence
      else jsSubstring firstSentence 0 47 ++ ("...").data
  else ("Untitled Card").data

lemma head?_dropWhile (p : Char → Bool) (l : Str) :
    ∀ x ∈ (l.dropWhile p).head?, p x = false := by
  intro x hx
  cases h : l.dropWhile p with
  | nil => rw [h] at hx; simp at hx
  | cons a as =>
    have hne : l.dropWhile p ≠ [] := by simp [h]
    have hhead := List.head_dropWhile_not p l hne
    rw [h] at hx
    simp at hx
    subst hx
    simpa [h] using hhead

lemma getLast?_cond_of_cons {p : Char → Bool} {c : Char} {cs : Str}
    (h : ∀ x ∈ (c :: cs).getLast?, p x = false) :
    ∀ x ∈ cs.getLast?, p x = false := by
  cases cs with
  | nil => simp
  | cons d ds => simpa [List.getLast?_cons_cons] using h

lemma splitRunsGo_all_ne_nil (p : Char → Bool) :
    ∀ l : Str,
      (∀ acc : Str, acc ≠ [] → (∀ x ∈ l.getLast?, p x = false) →
          ∀ t ∈ splitRunsGo p l acc false, t ≠ []) ∧
      (l ≠ [] → (∀ x ∈ l.getLast?, p x = false) →
          ∀ t ∈ splitRunsGo p l [] true, t ≠ []) := by
  intro l
  induction l with
  | nil =>
    refine ⟨fun acc hacc _ t ht => ?_, fun h => absurd rfl h⟩
    simp [splitRunsGo] at ht
    subst ht
    simpa using hacc
  | cons c cs ih =>
    have hcsne : p c = true → (∀ x ∈ (c :: cs).getLast?, p x = false) → cs ≠ [] := by
      intro hpc hlast hnil
      subst hnil
      have := hlast c (by simp)
      rw [this] at hpc
      exact Bool.false_ne_true hpc
    constructor
    · intro acc hacc hlast t ht
      by_cases hpc : p c = true
      · simp only [splitRunsGo, hpc, if_true] at ht
        rcases List.mem_cons.mp ht with h1 | h2
        · subst h1; simpa using hacc
        · exact ih.2 (hcsne hpc hlast) (getLast?_cond_of_cons hlast) t h2
      · simp only [splitRunsGo, hpc, if_false, Bool.not_eq_true] at ht
        exact ih.1 (c :: acc) (by simp) (getLast?_cond_of_cons hlast) t ht
    · intro _ hlast t ht
      by_cases hpc : p c = true
      · simp only [splitRunsGo, hpc, if_true] at ht
        exact ih.2 (hcsne hpc hlast) (getLast?_cond_of_cons hlast) t ht
      · simp only [splitRunsGo, hpc, if_false, Bool.not_eq_true] at ht
        exact ih.1 [c] (by simp) (getLast?_cond_of_cons hlast) t ht

lemma splitRuns_all_ne_nil (p : Char → Bool) (l : Str) (hne : l ≠ [])
    (hhead : ∀ x ∈ l.head?, p x = false)
    (hlast : ∀ x ∈ l.getLast?, p x = false) :
    ∀ t ∈ splitRuns p l, t ≠ [] := by
  cases l with
  | nil => exact absurd rfl hne
  | cons c cs =>
    have hpc : p c = false := hhead c (by simp)
    intro t ht
    simp only [splitRuns, splitRunsGo, hpc, if_false, Bool.false_eq_true] at ht
    exact (splitRunsGo_all_ne_nil p cs).1 [c] (by simp)
      (getLast?_cond_of_cons hlast) t ht

lemma jsTrim_head? (l : Str) : ∀ x ∈ (jsTrim l).head?, isWS x = false := by
  intro x hx
  unfold jsTrim at hx
  rw [List.head?_reverse] at hx
  rcases hw : ((l.dropWhile isWS).reverse.dropWhile isWS) with _ | _
  · rw [hw] at hx; simp at hx
  · have hwne : (l.dropWhile isWS).reverse.dropWhile isWS ≠ [] := by simp [hw]
    obtain ⟨s, hs⟩ := List.dropWhile_suffix (l := (l.dropWhile isWS).reverse) isWS
    have hlast : ((l.dropWhile isWS).reverse).getLast? =
        ((l.dropWhile isWS).reverse.dropWhile isWS).getLast? := by
      conv_lhs => rw [← hs]
      rw [List.getLast?_append_of_ne_nil _ hwne]
    rw [← hlast, List.getLast?_reverse] at hx
    exact head?_dropWhile isWS l x hx

lemma jsTrim_last? (l : Str) : ∀ x ∈ (jsTrim l).getLast?, isWS x = false := by
  intro x hx
  unfold jsTrim at hx
  rw [List.getLast?_reverse] at hx
  exact head?_dropWhile isWS _ x hx

lemma jsTrim_nil : jsTrim [] = [] := rfl

/-- C10: the authoritative countWords of CardUtils.ts and the private
countWords of the in-memory CardManager variant agree on every input. -/
theorem countWords_eq_countWordsMem (s : Str) : countWords s = countWordsMem s := by
  unfold countWords countWordsMem
  by_cases h : jsTrim s = []
  · rw [if_pos (Or.inr (by rw [h]; rfl)), h]
    simp [splitRuns, splitRunsGo]
  · have hcond : ¬ (s = [] ∨ (jsTrim s).length = 0) := by
      push_neg
      refine ⟨fun hs => h (by rw [hs]; rfl), ?_⟩
      simpa [List.length_eq_zero] using h
    rw [if_neg hcond]
    have hall := splitRuns_all_ne_nil isWS (jsTrim s) h (jsTrim_head? s) (jsTrim_last? s)
    have hfilter : (splitRuns isWS (jsTrim s)).filter (fun w => w.length > 0) =
        splitRuns isWS (jsTrim s) := by
      rw [List.filter_eq_self]
      intro a ha
      have := hall a ha
      simpa [List.length_pos] using this
    rw [hfilter]

/-- The changeType values of WritingCard.ts. -/
inductive ChangeType where
  | create
  | edit
  | merge
  | split
deriving DecidableEq

/-- The VersionEntry interface of WritingCard.ts. -/
structure VersionEntry where
  timestamp : Nat
  content : Str
  changeType : ChangeType
  author : Option Str := none
deriving DecidableEq

/-- The CardPosition interface of WritingCard.ts. -/
structure CardPosition where
  x : Int
  y : Int
  width : Int
  height : Int
  zIndex : Option Int := none
deriving DecidableEq

/-- The metadata object of the WritingCard interface. -/
structure CardMetadata where
  wordCount : Nat
  createdAt : Nat
  updatedAt : Nat
  chunkId : Option Str := none
  color : Option Str := none
  priority : Option Int := none
deriving DecidableEq

/-- The CardStatus values of WritingCard.ts. -/
inductive CardStatus where
  | draft
  | edited
  | reviewed
  | final
deriving DecidableEq

/-- The WritingCard interface of WritingCard.ts. -/
structure WritingCard where
  id : Str
  title : Str
  content : Str
  tags : List Str
  status : CardStatus
  history : List VersionEntry
  position : CardPosition
  metadata : CardMetadata
deriving DecidableEq

/-- The layout type values of the ChunkLayout interface. -/
inductive LayoutType where
  | grid
  | freeform
  | linear
deriving DecidableEq

/-- The ChunkLayout interface of WritingCard.ts. -/
structure ChunkLayout where
  type : LayoutType
  columns : Option Int := none
  spacing : Option Int := none
  autoArrange : Option Bool := none
deriving DecidableEq

/-- The ContentChunk interface of WritingCard.ts. -/
structure ContentChunk where
  id : Str
  name : Str
  cardIds : List Str
  purpose : Str
  layout : ChunkLayout
deriving DecidableEq

/-- The persistent state kept by CardStorage.ts: one JSON document per id
in the cards namespace and one per id in the chunks namespace (the views
namespace is not needed by any claim). -/
structure Store where
  cards : Str → Option WritingCard
  chunks : Str → Option ContentChunk

/-- CardStorage.saveCard: overwrite the document addressed by the id of
the card. -/
def Store.saveCard (st : Store) (card : WritingCard) : Store :=
  { st with cards := fun i => if i = card.id then some card else st.cards i }

/-- CardStorage.deleteCard: unlink the addressed document, reporting
whether it existed. -/
def Store.deleteCard (st : Store) (id : Str) : Bool × Store :=
  ((st.cards id).isSome,
    { st with cards := fun i => if i = id then none else st.cards i })

/-- CardStorage.saveChunk. -/
def Store.saveChunk (st : Store) (chunk : ContentChunk) : Store :=
  { st with chunks := fun i => if i = chunk.id then some chunk else st.chunks i }

/-- The only error kind the embedded manager code ever throws: a not-found
Error for an unresolved id (the message string is not modelled). -/
inductive Err where
  | notFound
deriving DecidableEq

/-- Projection of an Except to its success value, used to state concrete
evaluations. -/
def okOf {ε α : Type _} : Except ε α → Option α
  | .ok a => some a
  | .error _ => none

/-- A blank-line separator, the string of two newline characters. -/
def nl2 : Str := ('\n' :: '\n' :: [])

/-- A Partial of the metadata object, as passed in updates.metadata. -/
structure MetadataPatch where
  wordCount : Option Nat := none
  createdAt : Option Nat := none
  updatedAt : Option Nat := none
  chunkId : Option Str := none
  color : Option Str := none
  priority : Option Int := none
deriving DecidableEq

/-- A Partial of WritingCard, as passed to updateCard. -/
structure CardPatch where
  id : Option Str := none
  title : Option Str := none
  content : Option Str := none
  tags : Option (List Str) := none
  status : Option CardStatus := none
  history : Option (List VersionEntry) := none
  position : Option CardPosition := none
  metadata : Option MetadataPatch := none
deriving DecidableEq

/-- The empty patch, the object literal with no fields. -/
def emptyPatch : CardPatch := {}

/-- The spread of updates.metadata over card.metadata in updateCard. -/
def mergeMetadata (m : CardMetadata) (p : Option MetadataPatch) : CardMetadata :=
  match p with
  | none => m
  | some mp =>
    { wordCount := mp.wordCount.getD m.wordCount
      createdAt := mp.createdAt.getD m.createdAt
      updatedAt := mp.updatedAt.getD m.updatedAt
      chunkId := mp.chunkId.or m.chunkId
      color := mp.color.or m.color
      priority := mp.priority.or m.priority }

/-- CardManager.createCard (CardManager.ts lines 17-45): the freshly
generated id is the parameter newId; every new Date() in the operation is
the parameter now. The supplied title is used only when truthy (nonempty),
as in the expression title or extractTitle(content). -/
def createCard (st : Store) (newId : Str) (content : Str) (title : Option Str)
    (tags : List Str) (position : Option CardPosition) (now : Nat) :
    WritingCard × Store :=
  let extractedTitle :=
    match title with
    | some t => if t ≠ [] then t else extractTitle content
    | none => extractTitle content
  let card : WritingCard :=
    { id := newId
      title := extractedTitle
      content := content
      tags := tags
      status := .draft
      history := [{ timestamp := now, content := content, changeType := .create }]
      position := position.getD { x := 0, y := 0, width := 250, height := 200 }
      metadata := { wordCount := countWords content, createdAt := now, updatedAt := now } }
  (card, st.saveCard card)

/-- CardManager.updateCard (CardManager.ts lines 47-78): shallow merge of
the patch over the stored card, nested merge for metadata; updatedAt is
always refreshed; wordCount is recomputed only when the patched content is
truthy (nonempty), else kept from the stored card; a history entry tagged
edit is appended only when the patched content is truthy and differs from
the stored content, and in that case the appended history is based on the
stored history. -/
def updateCard (st : Store) (id : Str) (p : CardPatch) (now : Nat) :
    Except Err (WritingCard × Store) :=
  match st.cards id with
  | none => .error .notFound
  | some card =>
    let baseMeta := mergeMetadata card.metadata p.metadata
    let newMeta : CardMetadata :=
      { baseMeta with
        updatedAt := now
        wordCount :=
          match p.content with
          | some c => if c ≠ [] then countWords c else card.metadata.wordCount
          | none => card.metadata.wordCount }
    let merged : WritingCard :=
      { id := p.id.getD card.id
        title := p.title.getD card.title
        content := p.content.getD card.content
        tags := p.tags.getD card.tags
        status := p.status.getD card.status
        history := p.history.getD card.history
        position := p.position.getD card.position
        metadata := newMeta }
    let updated :=
      match p.content with
      | some c =>
        if c ≠ [] ∧ c ≠ card.content then
          { merged with history :=
              card.history ++ [{ timestamp := now, content := c, changeType := .edit }] }
        else merged
      | none => merged
    .ok (updated, st.saveCard updated)

/-- CardManager.splitCard (CardManager.ts lines 92-132): no validation of
splitPoint; the two halves come from substring(0, splitPoint) and
substring(splitPoint), trimmed; the original card is updated through
updateCard, the suffix becomes a fresh card, and both then receive an
extra history entry tagged split and are saved again. -/
def splitCard (st : Store) (id : Str) (splitPoint : Int) (newId : Str) (now : Nat) :
    Except Err (WritingCard × WritingCard × Store) :=
  match st.cards id with
  | none => .error .notFound
  | some card =>
    let content1 := jsTrim (jsSubstring card.content 0 splitPoint)
    let content2 := jsTrim (jsSubstring card.content splitPoint card.content.length)
    match updateCard st id
        { content := some content1, title := some (extractTitle content1) } now with
    | .error e => .error e
    | .ok (updatedCard1, st1) =>
      let nc := createCard st1 newId content2 (some (extractTitle content2))
        card.tags
        (some { x := card.position.x + card.position.width + 20
                y := card.position.y
                width := card.position.width
                height := card.position.height }) now
      let newCard := nc.1
      let st2 := nc.2
      let card1 := { updatedCard1 with history := updatedCard1.history ++
        [{ timestamp := now, content := content1, changeType := .split }] }
      let card2 := { newCard with history := newCard.history ++
        [{ timestamp := now, content := content2, changeType := .split }] }
      .ok (card1, card2, (st2.saveCard card1).saveCard card2)

/-- CardManager.mergeCards (CardManager.ts lines 134-162): concatenate the
two contents around a blank line, union the tags through new Set, update
card one in place, append a merge history entry, save again, then delete
card two from the store. -/
def mergeCards (st : Store) (id1 id2 : Str) (now : Nat) :
    Except Err (WritingCard × Store) :=
  match st.cards id1, st.cards id2 with
  | some card1, some card2 =>
    let mergedContent := card1.content ++ nl2 ++ card2.content
    let mergedTags := jsSetDedup (card1.tags ++ card2.tags)
    match updateCard st id1
        { content := some mergedContent
          title := some (extractTitle mergedContent)
          tags := some mergedTags } now with
    | .error e => .error e
    | .ok (mc, st1) =>
      let mergedCard := { mc with history := mc.history ++
        [{ timestamp := now, content := mergedContent, changeType := .merge }] }
      let st2 := st1.saveCard mergedCard
      let (_, st3) := st2.deleteCard id2
      .ok (mergedCard, st3)
  | _, _ => .error .notFound
/-- The patch {position} used by CardManager.updateCardPosition. -/
def positionPatch (pos : CardPosition) : CardPatch := { position := some pos }

/-- CardManager.updateCardPosition (CardManager.ts lines 165-167). -/
def updateCardPosition (st : Store) (id : Str) (pos : CardPosition) (now : Nat) :
    Except Err (WritingCard × Store) :=
  updateCard st id (positionPatch pos) now

/-- JavaScript or-with-default on an optional numeric layout field: the
expression v or d yields d when the field is absent or zero (falsy). -/
def jsOr (o : Option Int) (d : Int) : Int :=
  match o with
  | some v => if v = 0 then d else v
  | none => d

/-- The grid position assigned to loop index i in autoArrangeCards:
col = i % columns (JavaScript truncating remainder), row = Math.floor
(i / columns), x = col * (250 + spacing), y = row * (200 + spacing). -/
def gridPosition (columns spacing : Int) (i : Nat) : CardPosition :=
  { x := Int.tmod (i : Int) columns * (250 + spacing)
    y := Int.fdiv (i : Int) columns * (200 + spacing)
    width := 250
    height := 200 }

/-- The linear position assigned to loop index i in autoArrangeCards. -/
def linearPosition (spacing : Int) (i : Nat) : CardPosition :=
  { x := (i : Int) * (250 + spacing)
    y := 0
    width := 250
    height := 200 }

/-- The indexed repositioning loop of autoArrangeCards: each valid card is
repositioned through updateCardPosition in order, the store threading
through, and the updated cards are collected in order. -/
def arrangeLoop (mk : Nat → CardPosition) (now : Nat) :
    List (Nat × WritingCard) → Store → Except Err (List WritingCard × Store)
  | [], st => .ok ([], st)
  | (i, card) :: rest, st =>
    match updateCardPosition st card.id (mk i) now with
    | .error e => .error e
    | .ok (updated, st1) =>
      match arrangeLoop mk now rest st1 with
      | .error e => .error e
      | .ok (cs, st2) => .ok (updated :: cs, st2)

/-- CardManager.autoArrangeCards (CardManager.ts lines 169-209): load the
referenced cards, silently dropping unresolved ids, then reposition the
valid cards on a grid or a single row; freeform leaves positions alone. -/
def autoArrangeCards (st : Store) (cardIds : List Str) (layout : ChunkLayout)
    (now : Nat) : Except Err (List WritingCard × Store) :=
  let validCards := cardIds.filterMap st.cards
  match layout.type with
  | .grid =>
    arrangeLoop (gridPosition (jsOr layout.columns 3) (jsOr layout.spacing 20))
      now validCards.enum st
  | .linear =>
    arrangeLoop (linearPosition (jsOr layout.spacing 20)) now validCards.enum st
  | .freeform => .ok (validCards, st)

/-- A Partial of ContentChunk, as passed to updateChunk. -/
structure ChunkPatch where
  id : Option Str := none
  name : Option Str := none
  cardIds : Option (List Str) := none
  purpose : Option Str := none
  layout : Option ChunkLayout := none
deriving DecidableEq

/-- The spread of the patch over the stored chunk in updateChunk. -/
def applyChunkPatch (chunk : ContentChunk) (p : ChunkPatch) : ContentChunk :=
  { id := p.id.getD chunk.id
    name := p.name.getD chunk.name
    cardIds := p.cardIds.getD chunk.cardIds
    purpose := p.purpose.getD chunk.purpose
    layout := p.layout.getD chunk.layout }

/-- The default layout value of the createChunk parameter list. -/
def defaultChunkLayout : ChunkLayout :=
  { type := .grid, columns := some 3, spacing := some 20, autoArrange := some true }

/-- CardManager.createChunk (CardManager.ts lines 212-235): save the new
chunk, then auto-arrange its cards when the given layout has autoArrange
set and the card list is nonempty. -/
def createChunk (st : Store) (newId : Str) (name : Str) (cardIds : List Str)
    (purpose : Str) (layout : ChunkLayout) (now : Nat) :
    Except Err (ContentChunk × Store) :=
  let chunk : ContentChunk :=
    { id := newId, name := name, cardIds := cardIds, purpose := purpose, layout := layout }
  let st1 := st.saveChunk chunk
  if layout.autoArrange = some true ∧ cardIds ≠ [] then
    match autoArrangeCards st1 cardIds layout now with
    | .error e => .error e
    | .ok (_, st2) => .ok (chunk, st2)
  else .ok (chunk, st1)

/-- Truthiness of the optional-chain expression reading the autoArrange
flag of the PATCH layout in updateChunk. -/
def patchAutoArrange (p : ChunkPatch) : Bool :=
  match p.layout with
  | some l => l.autoArrange = some true
  | none => false

/-- CardManager.updateChunk (CardManager.ts lines 237-252): spread the
patch over the stored chunk and save; the auto-arrange side effect is
guarded by the autoArrange flag of the patch layout (the optional chain on
updates.layout), not by the flag of the merged layout. -/
def updateChunk (st : Store) (id : Str) (p : ChunkPatch) (now : Nat) :
    Except Err (ContentChunk × Store) :=
  match st.chunks id with
  | none => .error .notFound
  | some chunk =>
    let updated := applyChunkPatch chunk p
    let st1 := st.saveChunk updated
    if patchAutoArrange p = true ∧ updated.cardIds ≠ [] then
      match autoArrangeCards st1 updated.cardIds updated.layout now with
      | .error e => .error e
      | .ok (_, st2) => .ok (updated, st2)
    else .ok (updated, st1)

/-- CardManager.exportChunkAsText (CardManager.ts lines 311-321): load the
chunk, resolve its cardIds in order, drop unresolved ids, join the
surviving contents with a blank line. The join result is returned as is,
without trimming. -/
def exportChunkAsText (st : Store) (chunkId : Str) : Except Err Str :=
  match st.chunks chunkId with
  | none => .error .notFound
  | some chunk =>
    let validCards := (chunk.cardIds.map st.cards).filterMap (fun x => x)
    .ok (List.intercalate nl2 (validCards.map (·.content)))

/-- The history invariant stated by the spec: the history is nonempty and
its final entry records the current content of the card. -/
def histInv (c : WritingCard) : Prop :=
  c.history ≠ [] ∧ c.history.getLast?.map (·.content) = some c.content

/-- A well-formed card fixture used by concrete witnesses. -/
def mkCard (id : Str) (content : Str) (tags : List Str) (x : Int) : WritingCard :=
  { id := id
    title := extractTitle content
    content := content
    tags := tags
    status := .draft
    history := [{ timestamp := 0, content := content, changeType := .create }]
    position := { x := x, y := 0, width := 250, height := 200 }
    metadata := { wordCount := countWords content, createdAt := 0, updatedAt := 0 } }

/-- Card fixtures. -/
def cardA : WritingCard := mkCard (("a").data) (("hi").data) [("t1").data, ("t2").data] 0

def cardB : WritingCard := mkCard (("b").data) (("yo").data) [("t2").data, ("t3").data] 999

def cardC : WritingCard := mkCard (("c").data) ((" x ").data) [] 40

def cardD : WritingCard := mkCard (("d").data) (("dd").data) [] 50

/-- Chunk fixture whose cardIds contain one unresolved id and whose stored
layout asks for auto-arrange. -/
def chunkK : ContentChunk :=
  { id := ("k").data
    name := ("K").data
    cardIds := [("a").data, ("gone").data, ("b").data]
    purpose := ("general").data
    layout := { type := .grid, autoArrange := some true } }

/-- Chunk fixture holding the single card with untrimmed content. -/
def chunkKC : ContentChunk :=
  { id := ("kc").data
    name := ("KC").data
    cardIds := [("c").data]
    purpose := ("general").data
    layout := { type := .freeform } }

/-- Store fixture with four cards and two chunks. -/
def demoStore : Store :=
  { cards := fun i =>
      if i = ("a").data then some cardA
      else if i = ("b").data then some cardB
      else if i = ("c").data then some cardC
      else if i = ("d").data then some cardD
      else none
    chunks := fun i =>
      if i = ("k").data then some chunkK
      else if i = ("kc").data then some chunkKC
      else none }

example :
    okOf (exportChunkAsText demoStore (("k").data)) =
      some (("hi\n\nyo").data) := by decide

/-- C1 counterexample: the stored card under id a has content of length 2,
yet splitCard with splitPoint 5 completes successfully instead of failing
with an InvalidArgument error, so the out-of-range offset is not rejected. -/
theorem splitCard_out_of_range_succeeds :
    (demoStore.cards (("a").data)).map (fun c => c.content.length) = some 2 ∧
    (okOf (splitCard demoStore (("a").data) 5 (("n").data) 1)).isSome = true := by
  decide

/-- C2 counterexample: updating a card satisfying the history invariant
with a present but empty content patch completes, replaces the content by
the empty string, and leaves the history ending in the old content, so
after this completed mutation the last history entry no longer matches the
current content. -/
theorem updateCard_empty_content_breaks_invariant :
    histInv cardA ∧
    (okOf (updateCard demoStore (("a").data) { content := some [] } 5)).map
      (fun r => (r.1.content, r.1.history.map (·.content))) =
      some ([], [("hi").data]) := by
  exact ⟨⟨by decide, by decide⟩, by decide⟩

/-- C3 counterexample: a patch whose content is present, empty and
different from the stored content (yo) completes with the word count kept
at the stale value 1 instead of countWords of the new content (0), and
with no history entry appended (length stays 1 instead of growing to 2). -/
theorem updateCard_empty_content_no_edit_entry :
    (okOf (updateCard demoStore (("b").data) { content := some [] } 7)).map
      (fun r => (r.1.metadata.wordCount, r.1.history.length, r.1.content)) =
      some (1, 1, []) ∧ countWords [] = 0 := by
  decide

/-- C5 counterexample: exporting the chunk holding the single card whose
content is the string space-x-space returns that content verbatim, which
is not equal to its trimmed form, so the export result is not trimmed. -/
theorem exportChunkAsText_not_trimmed :
    okOf (exportChunkAsText demoStore (("kc").data)) = some ((" x ").data) ∧
    jsTrim ((" x ").data) ≠ (" x ").data := by
  decide

/-- The patch used by the C7 counterexample: it renames the chunk and does
not touch the layout. -/
def patchName : ChunkPatch := { name := some (("n").data) }

/-- C7 counterexample: the stored chunk k has autoArrange true in its
layout and nonempty cardIds, so its resolved layout under the rename patch
keeps autoArrange true; still updateChunk completes without invoking
autoArrangeCards: card b keeps its stored x coordinate 999, while the
auto-arrange call the claim demands would have moved it to x 270 (grid
index 1). -/
theorem updateChunk_resolved_flag_not_triggering :
    chunkK.layout.autoArrange = some true ∧
    (applyChunkPatch chunkK patchName).layout.autoArrange = some true ∧
    (okOf (updateChunk demoStore (("k").data) patchName 9)).map
      (fun r => (r.2.cards (("b").data)).map (fun c => c.position.x)) =
      some (some 999) ∧
    (okOf (autoArrangeCards (demoStore.saveChunk (applyChunkPatch chunkK patchName))
        (applyChunkPatch chunkK patchName).cardIds
        (applyChunkPatch chunkK patchName).layout 9)).map
      (fun r => (r.2.cards (("b").data)).map (fun c => c.position.x)) =
      some (some 270) := by
  decide

/-- A card with only its metadata updatedAt stamp replaced. -/
def refreshUpdatedAt (c : WritingCard) (now : Nat) : WritingCard :=
  { c with metadata := { c.metadata with updatedAt := now } }

/-- C4: updating a stored card with the empty patch appends no history
entry and changes nothing except metadata.updatedAt, which is refreshed to
the current time; the refreshed card is persisted under its id. -/
theorem updateCard_empty_patch (st : Store) (id : Str) (card : WritingCard)
    (now : Nat) (h : st.cards id = some card) :
    updateCard st id emptyPatch now =
      .ok (refreshUpdatedAt card now, st.saveCard (refreshUpdatedAt card now)) := by
  unfold updateCard
  rw [h]
  rfl

/-- C4 witness: the empty patch applied to the stored card a at time 5. -/
theorem updateCard_empty_patch_witness :
    updateCard demoStore (("a").data) emptyPatch 5 =
      .ok (refreshUpdatedAt cardA 5, demoStore.saveCard (refreshUpdatedAt cardA 5)) :=
  updateCard_empty_patch demoStore (("a").data) cardA 5 (by decide)

lemma jsSetDedup_foldl_mem (l : List Str) :
    ∀ (acc : List Str) (x : Str),
      x ∈ l.foldl (fun acc x => if x ∈ acc then acc else acc ++ [x]) acc ↔
        x ∈ acc ∨ x ∈ l := by
  induction l with
  | nil => intro acc x; simp
  | cons c cs ih =>
    intro acc x
    rw [List.foldl_cons, ih]
    by_cases hc : c ∈ acc
    · rw [if_pos hc]
      constructor
      · rintro (h | h)
        · exact Or.inl h
        · exact Or.inr (List.mem_cons_of_mem c h)
      · rintro (h | h)
        · exact Or.inl h
        · rcases List.mem_cons.mp h with rfl | h
          · exact Or.inl hc
          · exact Or.inr h
    · rw [if_neg hc]
      simp only [List.mem_append, List.mem_singleton, List.mem_cons]
      tauto

lemma jsSetDedup_mem (l : List Str) (x : Str) : x ∈ jsSetDedup l ↔ x ∈ l := by
  unfold jsSetDedup
  rw [jsSetDedup_foldl_mem]
  simp

lemma jsSetDedup_foldl_nodup (l : List Str) :
    ∀ acc : List Str, acc.Nodup →
      (l.foldl (fun acc x => if x ∈ acc then acc else acc ++ [x]) acc).Nodup := by
  induction l with
  | nil => intro acc h; simpa using h
  | cons c cs ih =>
    intro acc h
    rw [List.foldl_cons]
    apply ih
    by_cases hc : c ∈ acc
    · rw [if_pos hc]; exact h
    · rw [if_neg hc]
      simp [List.nodup_append, h, hc]

lemma jsSetDedup_nodup (l : List Str) : (jsSetDedup l).Nodup :=
  jsSetDedup_foldl_nodup l [] List.nodup_nil

lemma updateCard_ok_fields (st : Store) (id : Str) (p : CardPatch) (now : Nat)
    (card : WritingCard) (out : WritingCard × Store)
    (hcard : st.cards id = some card)
    (h : updateCard st id p now = .ok out) :
    out.1.id = p.id.getD card.id ∧
    out.1.content = p.content.getD card.content ∧
    out.1.tags = p.tags.getD card.tags ∧
    out.1.position = p.position.getD card.position ∧
    out.2 = st.saveCard out.1 := by
  unfold updateCard at h
  rw [hcard] at h
  simp only [Except.ok.injEq] at h
  subst h
  cases hpc : p.content with
  | none => simp [hpc]
  | some c =>
    simp only [hpc]
    split <;> simp [hpc]

/-- C8: merging two distinct stored cards returns a card keeping the first
id, whose content is the two contents joined by a blank line and whose
tags are the duplicate-free union of both tag lists; afterwards the second
card is gone from the store and the merged card is persisted under the
first id. -/
theorem mergeCards_distinct (st : Store) (id1 id2 : Str) (cA cB : WritingCard)
    (now : Nat) (out : WritingCard × Store)
    (h1 : st.cards id1 = some cA) (h2 : st.cards id2 = some cB)
    (hne : id1 ≠ id2) (hid : cA.id = id1)
    (h : mergeCards st id1 id2 now = .ok out) :
    out.1.id = id1 ∧
    out.1.content = cA.content ++ nl2 ++ cB.content ∧
    (∀ x, x ∈ out.1.tags ↔ x ∈ cA.tags ∨ x ∈ cB.tags) ∧
    out.1.tags.Nodup ∧
    out.2.cards id2 = none ∧
    out.2.cards id1 = some out.1 := by
  simp only [mergeCards, h1, h2] at h
  cases hu : updateCard st id1
      { content := some (cA.content ++ nl2 ++ cB.content)
        title := some (extractTitle (cA.content ++ nl2 ++ cB.content))
        tags := some (jsSetDedup (cA.tags ++ cB.tags)) } now with
  | error e => rw [hu] at h; simp at h
  | ok r =>
    rw [hu] at h
    obtain ⟨mc, st1⟩ := r
    simp only [Store.deleteCard, Except.ok.injEq] at h
    subst h
    obtain ⟨hmid, hmcontent, hmtags, -, hmstore⟩ :=
      updateCard_ok_fields st id1 _ now cA (mc, st1) h1 hu
    simp only [Option.getD_some] at hmid hmcontent hmtags
    refine ⟨?_, ?_, ?_, ?_, ?_, ?_⟩
    · simpa [hmid] using hid
    · simpa using hmcontent
    · intro x
      simp only [hmtags]
      rw [jsSetDedup_mem]
      exact List.mem_append
    · simp only [hmtags]
      exact jsSetDedup_nodup _
    · simp [Store.deleteCard]
    · simp only [Store.deleteCard, Store.saveCard]
      rw [if_neg hne, if_pos (by simpa [hmid] using hid.symm)]

/-- C9: merging a stored card with itself returns the card value whose
content is the original content duplicated around a blank line, but the
final delete of the second argument removes the document that was just
merged and saved, so the id resolves to nothing afterwards. -/
theorem mergeCards_same_id (st : Store) (id : Str) (card : WritingCard)
    (now : Nat) (out : WritingCard × Store)
    (h0 : st.cards id = some card) (hid : card.id = id)
    (h : mergeCards st id id now = .ok out) :
    out.1.id = id ∧
    out.1.content = card.content ++ nl2 ++ card.content ∧
    out.2.cards id = none := by
  simp only [mergeCards, h0] at h
  cases hu : updateCard st id
      { content := some (card.content ++ nl2 ++ card.content)
        title := some (extractTitle (card.content ++ nl2 ++ card.content))
        tags := some (jsSetDedup (card.tags ++ card.tags)) } now with
  | error e => rw [hu] at h; simp at h
  | ok r =>
    rw [hu] at h
    obtain ⟨mc, st1⟩ := r
    simp only [Store.deleteCard, Except.ok.injEq] at h
    subst h
    obtain ⟨hmid, hmcontent, -, -, -⟩ :=
      updateCard_ok_fields st id _ now card (mc, st1) h0 hu
    simp only [Option.getD_some] at hmid hmcontent
    refine ⟨?_, ?_, ?_⟩
    · simpa [hmid] using hid
    · simpa using hmcontent
    · simp [Store.deleteCard]

/-- The result of merging the stored cards a and b at time 3. -/
def demoMergeOut : WritingCard × Store :=
  match mergeCards demoStore (("a").data) (("b").data) 3 with
  | .ok out => out
  | .error _ => (cardA, demoStore)

/-- C8 witness: merging cards a and b of the demo store. -/
theorem mergeCards_distinct_witness :
    demoMergeOut.1.id = ("a").data ∧
    demoMergeOut.1.content = cardA.content ++ nl2 ++ cardB.content ∧
    (("t2").data ∈ demoMergeOut.1.tags ↔
      ("t2").data ∈ cardA.tags ∨ ("t2").data ∈ cardB.tags) ∧
    demoMergeOut.1.tags.Nodup ∧
    demoMergeOut.2.cards (("b").data) = none ∧
    demoMergeOut.2.cards (("a").data) = some demoMergeOut.1 := by
  obtain ⟨a1, a2, a3, a4, a5, a6⟩ :=
    mergeCards_distinct demoStore (("a").data) (("b").data) cardA cardB 3 demoMergeOut
      (by decide) (by decide) (by decide) (by decide) rfl
  exact ⟨a1, a2, a3 _, a4, a5, a6⟩

/-- The result of merging the stored card a with itself at time 3. -/
def demoSelfMergeOut : WritingCard × Store :=
  match mergeCards demoStore (("a").data) (("a").data) 3 with
  | .ok out => out
  | .error _ => (cardA, demoStore)

/-- C9 witness: merging card a of the demo store with itself. -/
theorem mergeCards_same_id_witness :
    demoSelfMergeOut.1.id = ("a").data ∧
    demoSelfMergeOut.1.content = cardA.content ++ nl2 ++ cardA.content ∧
    demoSelfMergeOut.2.cards (("a").data) = none :=
  mergeCards_same_id demoStore (("a").data) cardA 3 demoSelfMergeOut
    (by decide) (by decide) rfl

lemma updateCardPosition_ok_position (st : Store) (id : Str) (pos : CardPosition)
    (now : Nat) (u : WritingCard) (st1 : Store)
    (h : updateCardPosition st id pos now = .ok (u, st1)) : u.position = pos := by
  unfold updateCardPosition at h
  cases hc : st.cards id with
  | none => unfold updateCard at h; rw [hc] at h; simp at h
  | some card =>
    have := updateCard_ok_fields st id (positionPatch pos) now card (u, st1) hc h
    simpa [positionPatch] using this.2.2.2.1

lemma arrangeLoop_spec (mk : Nat → CardPosition) (now : Nat) :
    ∀ (l : List (Nat × WritingCard)) (st : Store) (cs : List WritingCard) (st' : Store),
      arrangeLoop mk now l st = .ok (cs, st') →
      cs.length = l.length ∧
      ∀ k (hk : k < cs.length) (hl : k < l.length),
        (cs.get ⟨k, hk⟩).position = mk (l.get ⟨k, hl⟩).1 := by
  intro l
  induction l with
  | nil =>
    intro st cs st' h
    simp only [arrangeLoop, Except.ok.injEq, Prod.mk.injEq] at h
    obtain ⟨h1, h2⟩ := h
    subst h1
    exact ⟨rfl, fun k hk hl => absurd hk (Nat.not_lt_zero k)⟩
  | cons hd tl ih =>
    intro st cs st' h
    obtain ⟨i, card⟩ := hd
    simp only [arrangeLoop] at h
    split at h
    · simp at h
    · rename_i updated st1 hu
      split at h
      · simp at h
      · rename_i cs2 st2 hr
        simp only [Except.ok.injEq, Prod.mk.injEq] at h
        obtain ⟨hcs, hst⟩ := h
        subst hcs
        obtain ⟨hlen, hpos⟩ := ih st1 cs2 st2 hr
        refine ⟨by simp [hlen], ?_⟩
        intro k hk hl
        cases k with
        | zero =>
          simpa using updateCardPosition_ok_position st card.id (mk i) now updated st1 hu
        | succ n =>
          simpa using hpos n (by simpa using hk) (by simpa using hl)

/-- C6: for a grid layout, the i.th card of the valid subset (cardIds
resolved in order, unresolved ids dropped) is placed at
x = (i mod columns) * (250 + spacing) and y = (i div columns) * (200 +
spacing) with the unset or zero columns defaulting to 3 and spacing to 20,
and the returned list has one entry per valid id. -/
theorem autoArrangeCards_grid_positions (st : Store) (cardIds : List Str)
    (layout : ChunkLayout) (now : Nat) (out : List WritingCard × Store)
    (ht : layout.type = .grid)
    (h : autoArrangeCards st cardIds layout now = .ok out) :
    out.1.length = (cardIds.filterMap st.cards).length ∧
    ∀ i (hi : i < out.1.length),
      (out.1.get ⟨i, hi⟩).position =
        { x := Int.tmod (i : Int) (jsOr layout.columns 3) * (250 + jsOr layout.spacing 20)
          y := Int.fdiv (i : Int) (jsOr layout.columns 3) * (200 + jsOr layout.spacing 20)
          width := 250
          height := 200 } := by
  obtain ⟨cs, st'⟩ := out
  simp only [autoArrangeCards, ht] at h
  obtain ⟨hlen, hpos⟩ := arrangeLoop_spec _ now _ st cs st' h
  have hlen' : cs.length = (cardIds.filterMap st.cards).length := by
    simpa [List.enum_length] using hlen
  refine ⟨hlen', ?_⟩
  intro i hi
  have hl : i < (cardIds.filterMap st.cards).enum.length := by
    rw [List.enum_length, ← hlen']
    exact hi
  have hp := hpos i hi hl
  rw [hp]
  have henum : ((cardIds.filterMap st.cards).enum.get ⟨i, hl⟩).1 = i := by
    simp [List.get_eq_getElem, List.getElem_enum]
  rw [henum]
  rfl

/-- The id list handed to the C6 witness arrangement: four resolvable ids
and one unresolved id that is dropped. -/
def demoArrangeIds : List Str :=
  [("a").data, ("zz").data, ("b").data, ("c").data, ("d").data]

/-- A grid layout with no explicit columns or spacing. -/
def demoGridLayout : ChunkLayout := { type := .grid }

/-- The result of the C6 witness arrangement. -/
def demoArrangeOut : List WritingCard × Store :=
  match autoArrangeCards demoStore demoArrangeIds demoGridLayout 4 with
  | .ok out => out
  | .error _ => ([], demoStore)

/-- C6 witness: with five input ids of which four resolve, defaults
columns 3 and spacing 20, the card at zero-based index 3 lands at row 1,
column 0, that is x 0 and y 220. -/
theorem autoArrangeCards_grid_positions_witness :
    (demoArrangeOut.1.get ⟨3, by decide⟩).position =
      { x := 0, y := 220, width := 250, height := 200 } := by
  have h := (autoArrangeCards_grid_positions demoStore demoArrangeIds demoGridLayout 4
    demoArrangeOut rfl rfl).2 3 (by decide)
  rw [h]
  decide

/-- The clamp of a character offset into the index range of a content
string, as performed by the substring clamping. -/
def clampOffset (len : Nat) (p : Int) : Int := min (max p 0) (len : Int)

lemma jsSubstring_zero (l : Str) (b : Int) :
    jsSubstring l 0 b = l.take (min (max b 0) (l.length : Int)).toNat := by
  simp only [jsSubstring]
  have h0 : min (max (0 : Int) 0) (l.length : Int) = 0 := by omega
  rw [h0]
  have hB1 : max (0 : Int) (min (max b 0) (l.length : Int)) =
      min (max b 0) (l.length : Int) := by omega
  have hB2 : min (0 : Int) (min (max b 0) (l.length : Int)) = 0 := by omega
  rw [hB1, hB2]
  simp

lemma jsSubstring_to_length (l : Str) (a : Int) :
    jsSubstring l a (l.length : Int) = l.drop (min (max a 0) (l.length : Int)).toNat := by
  simp only [jsSubstring]
  have hb : min (max (l.length : Int) 0) (l.length : Int) = (l.length : Int) := by omega
  rw [hb]
  have h1 : max (min (max a 0) (l.length : Int)) (l.length : Int) = (l.length : Int) := by
    omega
  have h2 : min (min (max a 0) (l.length : Int)) (l.length : Int) =
      min (max a 0) (l.length : Int) := by omega
  rw [h1, h2]
  have h3 : ((l.length : Int)).toNat = l.length := Int.toNat_natCast _
  rw [h3, List.take_length]

lemma clampOffset_clamp (len : Nat) (p : Int) :
    min (max (clampOffset len p) 0) (len : Int) = min (max p 0) (len : Int) := by
  simp only [clampOffset]
  omega

lemma jsSubstring_prefix_clamp (l : Str) (b : Int) :
    jsSubstring l 0 b = jsSubstring l 0 (clampOffset l.length b) := by
  rw [jsSubstring_zero, jsSubstring_zero, clampOffset_clamp]

lemma jsSubstring_suffix_clamp (l : Str) (a : Int) :
    jsSubstring l a (l.length : Int) =
      jsSubstring l (clampOffset l.length a) (l.length : Int) := by
  rw [jsSubstring_to_length, jsSubstring_to_length, clampOffset_clamp]

/-- C1 amended: splitCard performs no range validation; through the
clamping of substring an out-of-range splitPoint behaves exactly as the
same offset clamped into the valid range, so the call completes instead of
failing and the original card is mutated as by the clamped split. -/
theorem splitCard_clamps (st : Store) (id : Str) (card : WritingCard)
    (splitPoint : Int) (newId : Str) (now : Nat)
    (h : st.cards id = some card) :
    splitCard st id splitPoint newId now =
      splitCard st id (clampOffset card.content.length splitPoint) newId now := by
  simp only [splitCard, h]
  rw [← jsSubstring_prefix_clamp, ← jsSubstring_suffix_clamp]

/-- C1 amended witness: splitting the stored card a (content length 2) at
the out-of-range offset 5 equals splitting it at the clamped offset. -/
theorem splitCard_clamps_witness :
    splitCard demoStore (("a").data) 5 (("n").data) 1 =
      splitCard demoStore (("a").data)
        (clampOffset cardA.content.length 5) (("n").data) 1 :=
  splitCard_clamps demoStore (("a").data) cardA 5 (("n").data) 1 (by decide)

/-- C3 amended: for a patch whose content is present, nonempty, and
different from the stored content, updateCard appends exactly one history
entry tagged edit with the new content (after the stored history), sets
the content, and recomputes the word count from the new content. -/
theorem updateCard_content_change (st : Store) (id : Str) (card : WritingCard)
    (p : CardPatch) (c : Str) (now : Nat) (out : WritingCard × Store)
    (hcard : st.cards id = some card)
    (hc : p.content = some c) (hne : c ≠ []) (hdiff : c ≠ card.content)
    (h : updateCard st id p now = .ok out) :
    out.1.history = card.history ++
      [{ timestamp := now, content := c, changeType := .edit }] ∧
    out.1.content = c ∧
    out.1.metadata.wordCount = countWords c := by
  unfold updateCard at h
  rw [hcard] at h
  simp only [Except.ok.injEq] at h
  subst h
  simp only [hc]
  rw [if_pos ⟨hne, hdiff⟩]
  refine ⟨rfl, by simp [hc], by simp [hc, hne]⟩

/-- The result of updating card a with the content bye bye at time 5. -/
def demoEditOut : WritingCard × Store :=
  match updateCard demoStore (("a").data) { content := some (("bye bye").data) } 5 with
  | .ok out => out
  | .error _ => (cardA, demoStore)

/-- C3 amended witness: replacing the content hi of card a by bye bye. -/
theorem updateCard_content_change_witness :
    demoEditOut.1.history = cardA.history ++
      [{ timestamp := 5, content := ("bye bye").data, changeType := .edit }] ∧
    demoEditOut.1.content = ("bye bye").data ∧
    demoEditOut.1.metadata.wordCount = countWords (("bye bye").data) :=
  updateCard_content_change demoStore (("a").data) cardA
    { content := some (("bye bye").data) } (("bye bye").data) 5 demoEditOut
    (by decide) rfl (by decide) (by decide) rfl

/-- C5 amended: exporting an absent chunk fails with the not-found error;
exporting a stored chunk resolves its cardIds in stored order, silently
drops unresolved ids, and returns the surviving contents joined by exactly
one blank line, without trimming the result. -/
theorem exportChunkAsText_spec (st : Store) (chunkId : Str) :
    (st.chunks chunkId = none → exportChunkAsText st chunkId = .error .notFound) ∧
    ∀ chunk, st.chunks chunkId = some chunk →
      exportChunkAsText st chunkId =
        .ok (List.intercalate nl2
          ((chunk.cardIds.filterMap st.cards).map (·.content))) := by
  constructor
  · intro h
    simp [exportChunkAsText, h]
  · intro chunk h
    simp only [exportChunkAsText, h]
    rw [List.filterMap_map]
    rfl

/-- C5 amended witness: exporting an absent chunk id fails, and exporting
the stored chunk k (one dangling id among its three cardIds) returns the
blank-line join over the two surviving cards. -/
theorem exportChunkAsText_spec_witness :
    exportChunkAsText demoStore (("nochunk").data) = .error .notFound ∧
    exportChunkAsText demoStore (("k").data) =
      .ok (List.intercalate nl2
        ((chunkK.cardIds.filterMap demoStore.cards).map (·.content))) :=
  ⟨(exportChunkAsText_spec demoStore (("nochunk").data)).1 (by decide),
   (exportChunkAsText_spec demoStore (("k").data)).2 chunkK (by decide)⟩

lemma createCard_fst_content (st : Store) (newId content : Str) (title : Option Str)
    (tags : List Str) (position : Option CardPosition) (now : Nat) :
    (createCard st newId content title tags position now).1.content = content := rfl

lemma createCard_fst_history (st : Store) (newId content : Str) (title : Option Str)
    (tags : List Str) (position : Option CardPosition) (now : Nat) :
    (createCard st newId content title tags position now).1.history =
      [{ timestamp := now, content := content, changeType := .create }] := rfl

lemma histInv_createCard (st : Store) (newId content : Str) (title : Option Str)
    (tags : List Str) (position : Option CardPosition) (now : Nat) :
    histInv (createCard st newId content title tags position now).1 := by
  unfold histInv
  constructor <;> simp [createCard]

lemma histInv_updateCard (st : Store) (id : Str) (p : CardPatch) (now : Nat)
    (card : WritingCard) (out : WritingCard × Store)
    (hcard : st.cards id = some card) (hpre : histInv card)
    (hc : ∀ c, p.content = some c → c ≠ []) (hh : p.history = none)
    (h : updateCard st id p now = .ok out) : histInv out.1 := by
  unfold updateCard at h
  rw [hcard] at h
  simp only [Except.ok.injEq] at h
  subst h
  unfold histInv at hpre ⊢
  cases hpc : p.content with
  | none =>
    simpa [hpc, hh] using hpre
  | some c =>
    have hcne := hc c hpc
    by_cases hdiff : c = card.content
    · subst hdiff
      simp only [hpc]
      rw [if_neg (by simp)]
      simpa [hpc, hh] using hpre
    · simp only [hpc]
      rw [if_pos ⟨hcne, hdiff⟩]
      exact ⟨by simp, by simp [List.getLast?_concat, hpc]⟩

lemma histInv_splitCard (st : Store) (id : Str) (sp : Int) (newId : Str) (now : Nat)
    (out : WritingCard × WritingCard × Store)
    (h : splitCard st id sp newId now = .ok out) :
    histInv out.1 ∧ histInv out.2.1 := by
  simp only [splitCard] at h
  split at h
  · simp at h
  · rename_i card hcard
    split at h
    · simp at h
    · rename_i u1 st1 hu
      simp only [Except.ok.injEq] at h
      subst h
      have hfields := updateCard_ok_fields st id _ now card (u1, st1) hcard hu
      have hcontent : u1.content = jsTrim (jsSubstring card.content 0 sp) := by
        simpa using hfields.2.1
      constructor
      · unfold histInv
        exact ⟨by simp, by simp [List.getLast?_concat, hcontent]⟩
      · unfold histInv
        exact ⟨by simp, by simp [List.getLast?_concat, createCard_fst_content]⟩

lemma histInv_mergeCards (st : Store) (id1 id2 : Str) (now : Nat)
    (out : WritingCard × Store)
    (h : mergeCards st id1 id2 now = .ok out) : histInv out.1 := by
  simp only [mergeCards] at h
  split at h
  · rename_i card1 card2 h1 h2
    split at h
    · simp at h
    · rename_i mc st1 hu
      simp only [Store.deleteCard, Except.ok.injEq] at h
      subst h
      have hfields := updateCard_ok_fields st id1 _ now card1 (mc, st1) h1 hu
      have hcontent : mc.content = card1.content ++ nl2 ++ card2.content := by
        simpa using hfields.2.1
      unfold histInv
      exact ⟨by simp, by simp [List.getLast?_concat, hcontent]⟩
  · simp at h

/-- C2 amended: createCard establishes the history invariant (nonempty
history whose last entry carries the current content); updateCard
preserves it for every patch that does not replace the history wholesale
and whose content field, when present, is nonempty (truthy); splitCard and
mergeCards re-establish it unconditionally on every card they return. The
amendment excludes present-but-empty content patches, which the code
accepts while skipping the history append. -/
theorem history_invariant_amended :
    (∀ st newId content title tags position now,
        histInv (createCard st newId content title tags position now).1) ∧
    (∀ st id p now card out, st.cards id = some card → histInv card →
        (∀ c, p.content = some c → c ≠ []) → p.history = none →
        updateCard st id p now = .ok out → histInv out.1) ∧
    (∀ st id sp newId now out, splitCard st id sp newId now = .ok out →
        histInv out.1 ∧ histInv out.2.1) ∧
    (∀ st id1 id2 now out, mergeCards st id1 id2 now = .ok out → histInv out.1) :=
  ⟨histInv_createCard,
   fun st id p now card out h1 h2 h3 h4 h5 =>
     histInv_updateCard st id p now card out h1 h2 h3 h4 h5,
   histInv_splitCard,
   histInv_mergeCards⟩

/-- The result of renaming the title of card a at time 6. -/
def demoTitleOut : WritingCard × Store :=
  match updateCard demoStore (("a").data) { title := some (("T").data) } 6 with
  | .ok out => out
  | .error _ => (cardA, demoStore)

/-- The result of splitting card a at offset 1 at time 2. -/
def demoSplitOut : WritingCard × WritingCard × Store :=
  match splitCard demoStore (("a").data) 1 (("n2").data) 2 with
  | .ok out => out
  | .error _ => (cardA, cardA, demoStore)

/-- The result of merging cards c and d at time 8. -/
def demoMergeCD : WritingCard × Store :=
  match mergeCards demoStore (("c").data) (("d").data) 8 with
  | .ok out => out
  | .error _ => (cardA, demoStore)

/-- C2 amended witness: the invariant after a creation, a title-only
update, a split (both halves), and a merge on the demo store. -/
theorem history_invariant_amended_witness :
    histInv (createCard demoStore (("n").data) (("hey").data) none [] none 0).1 ∧
    histInv demoTitleOut.1 ∧
    (histInv demoSplitOut.1 ∧ histInv demoSplitOut.2.1) ∧
    histInv demoMergeCD.1 :=
  ⟨history_invariant_amended.1 demoStore (("n").data) (("hey").data) none [] none 0,
   history_invariant_amended.2.1 demoStore (("a").data)
     { title := some (("T").data) } 6 cardA demoTitleOut (by decide)
     ⟨by decide, by decide⟩ (fun c hc => nomatch hc) rfl rfl,
   history_invariant_amended.2.2.1 demoStore (("a").data) 1 (("n2").data) 2
     demoSplitOut rfl,
   history_invariant_amended.2.2.2 demoStore (("c").data) (("d").data) 8
     demoMergeCD rfl⟩

/-- C7 amended: createChunk auto-arranges when the supplied layout has
autoArrange true and the card list is nonempty, as claimed; updateChunk,
however, auto-arranges exactly when the PATCH itself carries a layout
whose autoArrange flag is true (and the merged cardIds are nonempty) — a
stored autoArrange flag alone, resolved into the merged layout, does not
trigger the arrangement. -/
theorem chunk_autoArrange_amended :
    (∀ st newId name cardIds purpose layout now
        (aout : List WritingCard × Store),
        layout.autoArrange = some true → cardIds ≠ [] →
        autoArrangeCards (st.saveChunk
            { id := newId, name := name, cardIds := cardIds,
              purpose := purpose, layout := layout }) cardIds layout now = .ok aout →
        createChunk st newId name cardIds purpose layout now =
          .ok ({ id := newId, name := name, cardIds := cardIds,
                 purpose := purpose, layout := layout }, aout.2)) ∧
    (∀ st id chunk p now (aout : List WritingCard × Store),
        st.chunks id = some chunk →
        patchAutoArrange p = true → (applyChunkPatch chunk p).cardIds ≠ [] →
        autoArrangeCards (st.saveChunk (applyChunkPatch chunk p))
            (applyChunkPatch chunk p).cardIds
            (applyChunkPatch chunk p).layout now = .ok aout →
        updateChunk st id p now = .ok (applyChunkPatch chunk p, aout.2)) ∧
    (∀ st id chunk p now, st.chunks id = some chunk →
        patchAutoArrange p = false →
        updateChunk st id p now =
          .ok (applyChunkPatch chunk p, st.saveChunk (applyChunkPatch chunk p))) := by
  refine ⟨?_, ?_, ?_⟩
  · intro st newId name cardIds purpose layout now aout ha hne harr
    obtain ⟨a1, a2⟩ := aout
    simp only [createChunk]
    rw [if_pos ⟨ha, hne⟩, harr]
  · intro st id chunk p now aout hch hpa hne harr
    obtain ⟨a1, a2⟩ := aout
    simp only [updateChunk, hch]
    rw [if_pos ⟨hpa, hne⟩, harr]
  · intro st id chunk p now hch hpa
    simp only [updateChunk, hch]
    rw [if_neg (by simp [hpa])]

/-- The layout-carrying patch of the C7 witness. -/
def demoChunkPatchLayout : ChunkPatch :=
  { layout := some { type := .grid, autoArrange := some true } }

/-- The arrangement produced inside updateChunk for the C7 witness. -/
def demoUpdateChunkArr : List WritingCard × Store :=
  match autoArrangeCards (demoStore.saveChunk (applyChunkPatch chunkK demoChunkPatchLayout))
      (applyChunkPatch chunkK demoChunkPatchLayout).cardIds
      (applyChunkPatch chunkK demoChunkPatchLayout).layout 9 with
  | .ok out => out
  | .error _ => ([], demoStore)

/-- The arrangement produced inside createChunk for the C7 witness. -/
def demoCreateChunkArr : List WritingCard × Store :=
  match autoArrangeCards (demoStore.saveChunk
      { id := ("nk").data, name := ("N").data, cardIds := [("a").data],
        purpose := ("general").data, layout := defaultChunkLayout })
      [("a").data] defaultChunkLayout 11 with
  | .ok out => out
  | .error _ => ([], demoStore)

/-- C7 amended witness: creation with the default auto-arranging layout
arranges; an update whose patch carries an auto-arranging layout arranges;
an update whose patch leaves the layout alone does not, even though the
stored chunk k has autoArrange true. -/
theorem chunk_autoArrange_amended_witness :
    createChunk demoStore (("nk").data) (("N").data) [("a").data]
        (("general").data) defaultChunkLayout 11 =
      .ok ({ id := ("nk").data, name := ("N").data, cardIds := [("a").data],
             purpose := ("general").data, layout := defaultChunkLayout },
           demoCreateChunkArr.2) ∧
    updateChunk demoStore (("k").data) demoChunkPatchLayout 9 =
      .ok (applyChunkPatch chunkK demoChunkPatchLayout, demoUpdateChunkArr.2) ∧
    updateChunk demoStore (("k").data) patchName 9 =
      .ok (applyChunkPatch chunkK patchName,
           demoStore.saveChunk (applyChunkPatch chunkK patchName)) :=
  ⟨chunk_autoArrange_amended.1 demoStore (("nk").data) (("N").data) [("a").data]
     (("general").data) defaultChunkLayout 11 demoCreateChunkArr rfl (by decide) rfl,
   chunk_autoArrange_amended.2.1 demoStore (("k").data) chunkK demoChunkPatchLayout 9
     demoUpdateChunkArr (by decide) rfl (by decide) rfl,
   chunk_autoArrange_amended.2.2 demoStore (("k").data) chunkK patchName 9
     (by decide) rfl⟩
example : countWords ("   ").data = 0 := by decide
example : countWordsMem ("  hello   world ").data = 2 := by decide
example : countWordsMem ("   ").data = 0 := by decide
example : splitRuns isWS (" a ").data = [[], [Char.ofNat 97], []] := by decide
example : jsSubstring ("ab").data 0 5 = ("ab").data := by decide
example : jsSubstring ("ab").data 5 2 = [] := by decide
example : extractTitle ("Hello world\nrest").data = ("Hello world").data := by decide
